import Mathlib

/-!
Verification of the Clear-Cache journaling application's annotation and
markup-conversion subsystem against its specification.

The development shallowly embeds the relevant TypeScript source:
* the regex-chain markdown/HTML converters of `RichTextEditor.tsx`
  (first revision), `FormattedTextDisplay.tsx` and the editor revision in
  `part_013`, modelled as character-list rewriting passes that reproduce
  JavaScript `String.replace(/…/g, …)` semantics (left-to-right scan, lazy
  `(.*?)` capture, `.` not matching a newline, lookarounds where present);
* the `StressReliefSystem` class of `DesktopClock.tsx` and the
  `ProcessScreen` component of `part_009`, modelled as pure transition
  functions on a state record holding the persisted `sr_highlights` store,
  the `sr_queue` store and the undo stack;
* `MemStorage.updateJournalEntry` of `server/storage.ts`.
-/

namespace ClearCache

/-! ## Generic JS `String.replace` engine

JavaScript `s.replace(/OPEN(.*?)CLOSE/g, PRE + "$1" + POST)` scans left to
right; at each index it tries to match OPEN, then extends the lazy capture
one character at a time (never across a newline, since `.` does not match
line terminators) until CLOSE matches; on success scanning resumes after
the match, on failure it advances one character.  The functions below are
fuel-indexed so that they are structurally recursive and kernel-reducible;
fuel equal to the input length always suffices because every step consumes
at least one input character. -/

/-- Lazy search for the earliest occurrence of `close`: returns the
captured content before it and the remainder after it.  When `allowNl` is
false the content may not contain a newline (JS `(.*?)` semantics); when
true it may (JS `([\s\S]*?)`). -/
def findLazy (close : List Char) (allowNl : Bool) : List Char → Option (List Char × List Char)
  | [] => if close.isPrefixOf ([] : List Char) then some ([], []) else none
  | x :: rest =>
    if close.isPrefixOf (x :: rest) then
      some ([], (x :: rest).drop close.length)
    else if !allowNl && x = '\n' then none
    else
      match findLazy close allowNl rest with
      | some (content, after) => some (x :: content, after)
      | none => none

/-- One global-replace pass for `/OPEN(.*?)CLOSE/g` → `PRE$1POST`
(`allowNl` selects `([\s\S]*?)` content).  `fuel` bounds the recursion. -/
def replaceTagF (opn close pre post : List Char) (allowNl : Bool) :
    Nat → List Char → List Char
  | 0, s => s
  | _ + 1, [] => []
  | fuel + 1, x :: rest =>
    if opn.isPrefixOf (x :: rest) then
      match findLazy close allowNl ((x :: rest).drop opn.length) with
      | some (content, after) =>
          pre ++ content ++ post ++ replaceTagF opn close pre post allowNl fuel after
      | none => x :: replaceTagF opn close pre post allowNl fuel rest
    else x :: replaceTagF opn close pre post allowNl fuel rest

/-- Global replace of a fixed pattern string, `s.replace(/PAT/g, REPL)`. -/
def replaceAllF (pat repl : List Char) : Nat → List Char → List Char
  | 0, s => s
  | _ + 1, [] => []
  | fuel + 1, x :: rest =>
    if pat.isPrefixOf (x :: rest) then
      repl ++ replaceAllF pat repl fuel ((x :: rest).drop pat.length)
    else x :: replaceAllF pat repl fuel rest

/-- Characters matched by JS `\s` (ASCII portion). -/
def jsSpace (c : Char) : Bool :=
  c = ' ' || c = '\t' || c = '\n' || c = '\r' || c = '\x0b' || c = '\x0c'

/-- Matcher for the tail of `/<br\s*\/?>/` after the literal `<br`:
consumes whitespace, an optional slash, then `>`. -/
def matchBrTail (s : List Char) : Option (List Char) :=
  match s.dropWhile jsSpace with
  | '/' :: '>' :: r => some r
  | '>' :: r => some r
  | _ => none

/-- Match `/<br\s*\/?>/` at the head of the input, returning the rest. -/
def matchBr (s : List Char) : Option (List Char) :=
  if ['<', 'b', 'r'].isPrefixOf s then matchBrTail (s.drop 3) else none

/-- Global replace of `/<br\s*\/?>/g` with a newline. -/
def replaceBrF : Nat → List Char → List Char
  | 0, s => s
  | _ + 1, [] => []
  | fuel + 1, x :: rest =>
    match matchBr (x :: rest) with
    | some after => '\n' :: replaceBrF fuel after
    | none => x :: replaceBrF fuel rest

/-- Non-global `s.replace(/^\n/, '')`: drop one leading newline. -/
def stripLeadingNewline : List Char → List Char
  | '\n' :: rest => rest
  | s => s

/-- Convenience wrapper running one tag pass with adequate fuel. -/
def rtag (opn close pre post : String) (allowNl : Bool) (s : List Char) : List Char :=
  replaceTagF opn.toList close.toList pre.toList post.toList allowNl s.length s

/-- Convenience wrapper running one fixed-string pass with adequate fuel. -/
def rall (pat repl : String) (s : List Char) : List Char :=
  replaceAllF pat.toList repl.toList s.length s

/-- Convenience wrapper for the `<br>` pass. -/
def rbr (s : List Char) : List Char := replaceBrF s.length s

/-! ## RichTextEditor (first revision): the encode/decode converter pair -/

namespace RichTextEditorV1

/-- `convertToHtml` of the first `RichTextEditor.tsx` revision: the chain of
`.replace` calls turning markdown-style text into HTML spans. -/
def convertToHtml (s : List Char) : List Char :=
  s
  |> rtag "**" "**" "<span class=\"bold\">" "</span>" false
  |> rtag "*" "*" "<span class=\"italic\">" "</span>" false
  |> rtag "_" "_" "<span class=\"underline\">" "</span>" false
  |> rtag "[highlight-yellow]" "[/highlight-yellow]"
    "<span class=\"highlight-yellow\">" "</span>" false
  |> rtag "[highlight-pink]" "[/highlight-pink]"
    "<span class=\"highlight-pink\">" "</span>" false
  |> rtag "[highlight-green]" "[/highlight-green]"
    "<span class=\"highlight-green\">" "</span>" false
  |> rtag "[highlight-blue]" "[/highlight-blue]"
    "<span class=\"highlight-blue\">" "</span>" false
  |> rall "\n" "<br>"

/-- `convertFromHtml` of the same revision: the inverse-direction chain. -/
def convertFromHtml (s : List Char) : List Char :=
  s
  |> rtag "<span class=\"bold\">" "</span>" "**" "**" false
  |> rtag "<span class=\"italic\">" "</span>" "*" "*" false
  |> rtag "<span class=\"underline\">" "</span>" "_" "_" false
  |> rtag "<span class=\"highlight-yellow\">" "</span>"
    "[highlight-yellow]" "[/highlight-yellow]" false
  |> rtag "<span class=\"highlight-pink\">" "</span>"
    "[highlight-pink]" "[/highlight-pink]" false
  |> rtag "<span class=\"highlight-green\">" "</span>"
    "[highlight-green]" "[/highlight-green]" false
  |> rtag "<span class=\"highlight-blue\">" "</span>"
    "[highlight-blue]" "[/highlight-blue]" false
  |> rbr
  |> rall "<div>" "\n"
  |> rall "</div>" ""
  |> stripLeadingNewline

end RichTextEditorV1

/-! ## Identity lemmas for the replace engine

A replace pass leaves its input unchanged whenever the trigger (the open
delimiter or the fixed pattern) occurs nowhere in the input. -/

theorem prefix_of_isPrefixOf {l₁ l₂ : List Char} (h : l₁.isPrefixOf l₂) : l₁ <+: l₂ := by
  simpa using h

theorem not_isPrefixOf_of_no_occurrence {opn s : List Char} (h : ¬ opn <:+: s) :
    opn.isPrefixOf s = false := by
  cases ht : opn.isPrefixOf s with
  | false => rfl
  | true => exact absurd (prefix_of_isPrefixOf ht).isInfix h

theorem not_infix_of_not_mem {p s : List Char} {c : Char} (hc : c ∈ p) (hs : c ∉ s) :
    ¬ p <:+: s := fun h => hs (h.sublist.subset hc)

theorem replaceTagF_id {opn close pre post : List Char} {allowNl : Bool} :
    ∀ fuel s, ¬ opn <:+: s → replaceTagF opn close pre post allowNl fuel s = s
  | 0, _, _ => rfl
  | _ + 1, [], _ => rfl
  | fuel + 1, x :: rest, h => by
    have hrest : ¬ opn <:+: rest := fun hi => h (List.infix_cons hi)
    simp [replaceTagF, not_isPrefixOf_of_no_occurrence h, replaceTagF_id fuel rest hrest]

theorem replaceAllF_id {pat repl : List Char} :
    ∀ fuel s, ¬ pat <:+: s → replaceAllF pat repl fuel s = s
  | 0, _, _ => rfl
  | _ + 1, [], _ => rfl
  | fuel + 1, x :: rest, h => by
    have hrest : ¬ pat <:+: rest := fun hi => h (List.infix_cons hi)
    simp [replaceAllF, not_isPrefixOf_of_no_occurrence h, replaceAllF_id fuel rest hrest]

theorem matchBr_eq_none {s : List Char} (h : '<' ∉ s) : matchBr s = none := by
  unfold matchBr
  rw [not_isPrefixOf_of_no_occurrence (not_infix_of_not_mem (by decide) h)]
  rfl

theorem replaceBrF_id : ∀ fuel s, '<' ∉ s → replaceBrF fuel s = s
  | 0, _, _ => rfl
  | _ + 1, [], _ => rfl
  | fuel + 1, x :: rest, h => by
    have hrest : '<' ∉ rest := fun hm => h (List.mem_cons_of_mem x hm)
    simp [replaceBrF, matchBr_eq_none h, replaceBrF_id fuel rest hrest]

theorem stripLeadingNewline_id {s : List Char} (h : '\n' ∉ s) :
    stripLeadingNewline s = s := by
  match s, h with
  | [], _ => rfl
  | x :: rest, h =>
    have hx : x ≠ '\n' := fun he => h (he ▸ List.mem_cons_self x rest)
    unfold stripLeadingNewline
    split
    · next heq => exact absurd (List.cons.injEq .. ▸ congrArg id heq).1 hx
    · rfl

theorem rtag_id {opn close pre post : String} {allowNl : Bool} {s : List Char}
    (h : ¬ opn.toList <:+: s) : rtag opn close pre post allowNl s = s :=
  replaceTagF_id _ _ h

theorem rall_id {pat repl : String} {s : List Char} (h : ¬ pat.toList <:+: s) :
    rall pat repl s = s :=
  replaceAllF_id _ _ h

theorem rbr_id {s : List Char} (h : '<' ∉ s) : rbr s = s :=
  replaceBrF_id _ _ h

/-! ## Claim C1 and C2: round-trip behaviour of the converter pair -/

/-- A plain-text block: document text that contains none of the characters
and marker substrings that trigger any rewriting rule of the converter
pair (no emphasis characters, no HTML angle bracket, no newline, no
highlight marker). -/
def plainTextBlock (s : List Char) : Prop :=
  '*' ∉ s ∧ '_' ∉ s ∧ '<' ∉ s ∧ '\n' ∉ s ∧ ¬ "[highlight-".toList <:+: s

theorem convertToHtml_id_of_plain {s : List Char} (h : plainTextBlock s) :
    RichTextEditorV1.convertToHtml s = s := by
  obtain ⟨hstar, hund, hlt, hnl, hhl⟩ := h
  have hy : ¬ "[highlight-yellow]".toList <:+: s := fun hi =>
    hhl (List.IsInfix.trans (List.IsPrefix.isInfix (by decide)) hi)
  have hp : ¬ "[highlight-pink]".toList <:+: s := fun hi =>
    hhl (List.IsInfix.trans (List.IsPrefix.isInfix (by decide)) hi)
  have hg : ¬ "[highlight-green]".toList <:+: s := fun hi =>
    hhl (List.IsInfix.trans (List.IsPrefix.isInfix (by decide)) hi)
  have hb : ¬ "[highlight-blue]".toList <:+: s := fun hi =>
    hhl (List.IsInfix.trans (List.IsPrefix.isInfix (by decide)) hi)
  unfold RichTextEditorV1.convertToHtml
  rw [rtag_id (not_infix_of_not_mem (by decide) hstar),
    rtag_id (not_infix_of_not_mem (by decide) hstar),
    rtag_id (not_infix_of_not_mem (by decide) hund),
    rtag_id hy, rtag_id hp, rtag_id hg, rtag_id hb,
    rall_id (not_infix_of_not_mem (by decide) hnl)]

theorem convertFromHtml_id_of_plain {s : List Char} (hlt : '<' ∉ s) (hnl : '\n' ∉ s) :
    RichTextEditorV1.convertFromHtml s = s := by
  unfold RichTextEditorV1.convertFromHtml
  rw [rtag_id (not_infix_of_not_mem (by decide) hlt),
    rtag_id (not_infix_of_not_mem (by decide) hlt),
    rtag_id (not_infix_of_not_mem (by decide) hlt),
    rtag_id (not_infix_of_not_mem (by decide) hlt),
    rtag_id (not_infix_of_not_mem (by decide) hlt),
    rtag_id (not_infix_of_not_mem (by decide) hlt),
    rtag_id (not_infix_of_not_mem (by decide) hlt),
    rbr_id hlt,
    rall_id (not_infix_of_not_mem (by decide) hlt),
    rall_id (not_infix_of_not_mem (by decide) hlt),
    stripLeadingNewline_id hnl]

theorem roundTrip_id_of_plain {s : List Char} (h : plainTextBlock s) :
    RichTextEditorV1.convertFromHtml (RichTextEditorV1.convertToHtml s) = s := by
  rw [convertToHtml_id_of_plain h, convertFromHtml_id_of_plain h.2.2.1 h.2.2.2.1]

/-- Claim C1 (counterexample): the round-trip identity
`convertFromHtml (convertToHtml text) = text` does not hold for every
document text: the one-character text consisting of a newline round-trips
to the empty text, because encoding turns it into a literal break tag and
decoding strips the recovered leading newline. -/
theorem markupRoundTrip_counterexample :
    RichTextEditorV1.convertFromHtml (RichTextEditorV1.convertToHtml "\n".toList)
      ≠ "\n".toList := by decide

/-- Claim C1 (amended): the round-trip identity holds for every plain-text
document text, i.e. any text containing no emphasis character, no HTML
angle bracket, no newline and no highlight marker; it fails in general. -/
theorem markupRoundTrip_plain (s : List Char) (h : plainTextBlock s) :
    RichTextEditorV1.convertFromHtml (RichTextEditorV1.convertToHtml s) = s :=
  roundTrip_id_of_plain h

/-- Witness for the amended claim C1 at a concrete plain text. -/
theorem markupRoundTrip_plain_witness :
    RichTextEditorV1.convertFromHtml
      (RichTextEditorV1.convertToHtml "hello world today".toList)
      = "hello world today".toList :=
  markupRoundTrip_plain _ (by refine ⟨?_, ?_, ?_, ?_, ?_⟩ <;> decide)

/-- Claim C2: escaping correctness.  A plain-text block that contains the
literal marker-like characters of an opening tag marker round-trips
unchanged through the encode/decode pair: the literal characters survive
and are never interpreted as markers. -/
theorem escapingCorrectness (s : List Char)
    (hplain : plainTextBlock s) (_hmarker : "[tag:id=".toList <:+: s) :
    RichTextEditorV1.convertFromHtml (RichTextEditorV1.convertToHtml s) = s :=
  roundTrip_id_of_plain hplain

/-- Witness for claim C2 at a concrete block containing `[tag:id=`. -/
theorem escapingCorrectness_witness :
    RichTextEditorV1.convertFromHtml
      (RichTextEditorV1.convertToHtml "a literal [tag:id=7] survives".toList)
      = "a literal [tag:id=7] survives".toList :=
  escapingCorrectness _ (by refine ⟨?_, ?_, ?_, ?_, ?_⟩ <;> decide) (by decide)

/-! ## Stress Relief Catharsis System (`DesktopClock.tsx`, `part_009`)

The class `StressReliefSystem` persists annotation records in the
`sr_highlights` store and queue records in the `sr_queue` store; the
`ProcessScreen` component processes annotations and keeps an undo stack of
`{id, previousState}` snapshots.  The model below represents that world as
a single state record and each method as a pure transition function.
Ambient data a method reads from the DOM or the clock (the current
selection, `Date.now()`, the random id suffix, the entry id, whether
`range.surroundContents` succeeds) is passed in an explicit context
record.  The class's own write-only `undoStack` array (pushed in
`srProcessAction`, never read) is not part of the observable state. -/

/-- A DOM range as read by `srWrapSelection`: container nodes are named by
numbers, `text` is `range.toString()`. -/
structure SRRange where
  startContainer : Nat
  endContainer : Nat
  startOffset : Nat
  endOffset : Nat
  text : List Char
deriving DecidableEq, Repr

/-- DOM `Selection.isCollapsed`: start and end boundary points coincide. -/
def SRRange.isCollapsed (r : SRRange) : Bool :=
  r.startContainer == r.endContainer && r.startOffset == r.endOffset

/-- `isMultiNodeSelection` of `StressReliefSystem`:
`range.startContainer !== range.endContainer`. -/
def isMultiNodeSelection (r : SRRange) : Bool :=
  r.startContainer != r.endContainer

/-- Annotation lifecycle state (`'new' | 'processed'`). -/
inductive SRLifecycle where
  | new
  | processed
deriving DecidableEq, Repr

/-- Queue item state (`'queued' | 'done'`). -/
inductive SRQueueLife where
  | queued
  | done
deriving DecidableEq, Repr

/-- Annotation anchor kind (`'range' | 'block'`). -/
inductive SRAnchorType where
  | range
  | block
deriving DecidableEq, Repr

/-- An `SRHighlight` record as persisted in `sr_highlights`.  The source
fields `start` and `end` are named `startOff` and `endOff` (`end` is
reserved in Lean); fields that the source leaves absent are `none`. -/
structure SRHighlight where
  id : String
  entryId : String
  type : SRAnchorType
  startOff : Option Nat
  endOff : Option Nat
  blockId : Option String
  emotion : String
  intent : Option String
  state : SRLifecycle
  action : Option String
  createdAt : Nat
  processedAt : Option Nat
deriving DecidableEq, Repr

/-- An `SRQueueItem` record as persisted in `sr_queue`. -/
structure SRQueueItem where
  id : String
  highlightId : String
  entryId : String
  emotion : String
  state : SRQueueLife
deriving DecidableEq, Repr

/-- The observable persistent state: the `sr_highlights` store, the
`sr_queue` store, and the `ProcessScreen` undo stack of
`{id, previousState}` snapshots. -/
structure SRState where
  highlights : List SRHighlight
  queue : List SRQueueItem
  undoStack : List (String × SRHighlight)
deriving DecidableEq, Repr

/-- Empty initial state (fresh installation). -/
def initState : SRState := ⟨[], [], []⟩

/-- In-place mutation of the first list element satisfying `p` (the JS
pattern `const x = l.find(…); if (x) x.f = v;`). -/
def updateFirst (p : α → Bool) (f : α → α) : List α → List α
  | [] => []
  | x :: xs => if p x then f x :: xs else x :: updateFirst p f xs

/-- `persistHighlight`: push onto `sr_highlights`. -/
def persistHighlight (h : SRHighlight) (st : SRState) : SRState :=
  { st with highlights := st.highlights ++ [h] }

/-- `addToQueue`: push a fresh queued item onto `sr_queue`. -/
def addToQueue (qid highlightId entryId emotion : String) (st : SRState) : SRState :=
  { st with
    queue := st.queue ++
      [{ id := qid, highlightId := highlightId, entryId := entryId,
         emotion := emotion, state := .queued }] }

/-- Ambient context read by `srWrapSelection`. -/
structure WrapCtx where
  hasEditor : Bool
  selection : Option SRRange
  editorStart : Nat
  now : Nat
  rand : String
  qrand : String
  entryId : String
  surroundOk : Bool
deriving DecidableEq, Repr

/-- `StressReliefSystem.srWrapSelection({emotion, intent})`: guards
(no/collapsed selection, no editor, multi-node selection, DOM wrap
failure) return without touching the stores; otherwise a new `range`
highlight in state `new` is persisted and queued. -/
def srWrapSelection (emotion : String) (intent : Option String) (ctx : WrapCtx)
    (st : SRState) : SRState :=
  match ctx.selection with
  | none => st
  | some r =>
    if r.isCollapsed || !ctx.hasEditor then st
    else if isMultiNodeSelection r then st
    else if !ctx.surroundOk then st
    else
      let highlightId := "hl_" ++ toString ctx.now ++ "_" ++ ctx.rand
      let h : SRHighlight :=
        { id := highlightId, entryId := ctx.entryId, type := .range,
          startOff := some ctx.editorStart,
          endOff := some (ctx.editorStart + r.text.length),
          blockId := none, emotion := emotion, intent := intent,
          state := .new, action := none, createdAt := ctx.now,
          processedAt := none }
      addToQueue ("aq_" ++ toString ctx.now ++ "_" ++ ctx.qrand)
        highlightId ctx.entryId emotion (persistHighlight h st)

/-- Ambient context read by `srTagBlock`. -/
structure TagCtx where
  blockId : Option String
  now : Nat
  rand : String
  qrand : String
  entryId : String
deriving DecidableEq, Repr

/-- `StressReliefSystem.srTagBlock(blockEl, emotion)`: no-op when the
element has no `data-block-id`; otherwise persists and queues a `block`
highlight in state `new`. -/
def srTagBlock (emotion : String) (ctx : TagCtx) (st : SRState) : SRState :=
  match ctx.blockId with
  | none => st
  | some bid =>
    let highlightId := "hl_block_" ++ toString ctx.now ++ "_" ++ ctx.rand
    let h : SRHighlight :=
      { id := highlightId, entryId := ctx.entryId, type := .block,
        startOff := none, endOff := none, blockId := some bid,
        emotion := emotion, intent := none, state := .new, action := none,
        createdAt := ctx.now, processedAt := none }
    addToQueue ("aq_" ++ toString ctx.now ++ "_" ++ ctx.qrand)
      highlightId ctx.entryId emotion (persistHighlight h st)

/-- The mutation `srProcessAction` performs on the found highlight:
`highlight.state = 'processed'; highlight.action = action;
highlight.processedAt = Date.now()`. -/
def processMutation (action : String) (now : Nat) (h : SRHighlight) : SRHighlight :=
  { h with state := .processed, action := some action, processedAt := some now }

/-- `StressReliefSystem.srProcessAction(highlightId, action)`: if the
highlight exists, set it to `processed` with the action and timestamp, and
mark the matching queue item `done`. -/
def srProcessAction (highlightId action : String) (now : Nat) (st : SRState) : SRState :=
  match st.highlights.find? (fun h => h.id == highlightId) with
  | none => st
  | some _ =>
    { st with
      highlights := updateFirst (fun h => h.id == highlightId)
        (processMutation action now) st.highlights,
      queue := updateFirst (fun q => q.highlightId == highlightId)
        (fun q => { q with state := .done }) st.queue }

/-- `ProcessScreen.handleProcessAction`: snapshot the highlight (looked up
in the screen's list of `new` highlights) onto the undo stack, then call
`srProcessAction`. -/
def handleProcessAction (highlightId action : String) (now : Nat) (st : SRState) : SRState :=
  let st' :=
    match (st.highlights.filter (fun h => h.state == SRLifecycle.new)).find?
        (fun h => h.id == highlightId) with
    | some h => { st with undoStack := st.undoStack ++ [(highlightId, h)] }
    | none => st
  srProcessAction highlightId action now st'

/-- `ProcessScreen.handleUndo`: silently no-op without a matching undo
entry; otherwise restore the snapshot at the highlight's index, re-queue
the matching queue item, and drop all undo entries for the id. -/
def handleUndo (highlightId : String) (st : SRState) : SRState :=
  match st.undoStack.find? (fun u => u.1 == highlightId) with
  | none => st
  | some (_, prev) =>
    match st.highlights.findIdx? (fun h => h.id == highlightId) with
    | none => st
    | some i =>
      { highlights := st.highlights.set i prev,
        queue := updateFirst (fun q => q.highlightId == highlightId)
          (fun q => { q with state := .queued }) st.queue,
        undoStack := st.undoStack.filter (fun u => u.1 != highlightId) }

/-- Seven days in milliseconds. -/
def sevenDays : Int := 7 * 24 * 60 * 60 * 1000

/-- The time gate of `checkTrashDay`: no stored `sr_lastReview`, or at
least seven days elapsed. -/
def trashDayDue (lastReview : Option Int) (now : Int) : Bool :=
  match lastReview with
  | none => true
  | some lr => decide (now - lr ≥ sevenDays)

/-- `StressReliefSystem.checkTrashDay`: returns whether the trash-day
banner is shown — the time gate holds and the queue contains at least one
`queued` item. -/
def checkTrashDay (lastReview : Option Int) (now : Int) (queue : List SRQueueItem) : Bool :=
  trashDayDue lastReview now &&
    decide (0 < (queue.filter (fun q => q.state == SRQueueLife.queued)).length)

/-- The selection state of the textarea-based `RichTextEditor` revision,
as read by `handleTextSelection`: the window selection's text and the
textarea's `selectionStart`/`selectionEnd`. -/
structure TextAreaSel where
  windowText : List Char
  selectionStart : Nat
  selectionEnd : Nat
deriving DecidableEq, Repr

/-- JS `String.prototype.trim` (ASCII whitespace). -/
def jsTrim (s : List Char) : List Char :=
  ((s.dropWhile jsSpace).reverse.dropWhile jsSpace).reverse

/-- `handleTextSelection` of the textarea `RichTextEditor` revision:
returns the popover request (the selection range it commits) or `none`
when no popover is opened.  Guards: editor present and not read-only,
trimmed selection text longer than two characters, and
`selectionStart !== selectionEnd`. -/
def handleTextSelection (readOnly hasEditor : Bool) (sel : TextAreaSel) :
    Option (Nat × Nat) :=
  if !hasEditor || readOnly then none
  else
    let t := jsTrim sel.windowText
    if t ≠ [] ∧ 2 < t.length then
      if sel.selectionStart != sel.selectionEnd then
        some (sel.selectionStart, sel.selectionEnd)
      else none
    else none

/-! ## Claims C3, C7, C8: selection guards and the trash-day gate -/

/-- Claim C3: cross-block selections are rejected, not committed.  When a
selection's start point and end point lie in different DOM containers, the
wrap operation leaves the whole state — in particular the persisted
`sr_highlights` store and the `sr_queue` store — unchanged. -/
theorem crossBlockSelectionRejected (emotion : String) (intent : Option String)
    (ctx : WrapCtx) (st : SRState) (r : SRRange)
    (hsel : ctx.selection = some r)
    (hcross : r.startContainer ≠ r.endContainer) :
    srWrapSelection emotion intent ctx st = st := by
  have hmulti : isMultiNodeSelection r = true := by
    simpa [isMultiNodeSelection, bne_iff_ne] using hcross
  unfold srWrapSelection
  rw [hsel]
  by_cases hc : (r.isCollapsed || !ctx.hasEditor) = true
  · simp [hc]
  · simp [hc, hmulti]

/-- Witness for claim C3 at a concrete cross-container selection. -/
theorem crossBlockSelectionRejected_witness :
    srWrapSelection "stress" none
      { hasEditor := true, selection := some ⟨0, 1, 0, 3, "abc".toList⟩,
        editorStart := 0, now := 5, rand := "r", qrand := "q",
        entryId := "e", surroundOk := true } initState = initState :=
  crossBlockSelectionRejected "stress" none _ initState
    ⟨0, 1, 0, 3, "abc".toList⟩ rfl (by decide)

/-- Claim C7: the trash-day review prompt is shown exactly when the
last-review timestamp is absent or at least seven days old, and at least
one queued item exists. -/
theorem trashDayGate (lastReview : Option Int) (now : Int) (queue : List SRQueueItem) :
    checkTrashDay lastReview now queue = true ↔
      ((lastReview = none ∨ ∃ lr, lastReview = some lr ∧ sevenDays ≤ now - lr)
        ∧ ∃ q ∈ queue, q.state = SRQueueLife.queued) := by
  unfold checkTrashDay trashDayDue
  cases lastReview with
  | none =>
    simp [List.length_pos_iff_exists_mem, List.mem_filter, beq_iff_eq]
  | some lr =>
    simp [List.length_pos_iff_exists_mem, List.mem_filter, beq_iff_eq]

/-- Claim C8: zero-length (collapsed) selections are rejected.  In the
textarea editor, `handleTextSelection` opens no popover when
`selectionStart` equals `selectionEnd`; in the stress-relief system, a
collapsed DOM selection leaves the state unchanged. -/
theorem zeroLengthSelectionRejected :
    (∀ (readOnly hasEditor : Bool) (sel : TextAreaSel),
       sel.selectionStart = sel.selectionEnd →
       handleTextSelection readOnly hasEditor sel = none)
    ∧ (∀ (emotion : String) (intent : Option String) (ctx : WrapCtx)
         (st : SRState) (r : SRRange), ctx.selection = some r →
         r.startContainer = r.endContainer → r.startOffset = r.endOffset →
         srWrapSelection emotion intent ctx st = st) := by
  constructor
  · intro ro he sel h
    have hne : (sel.selectionStart != sel.selectionEnd) = false := by simp [h]
    simp [handleTextSelection, hne]
  · intro e i ctx st r hsel hc ho
    have hcol : r.isCollapsed = true := by simp [SRRange.isCollapsed, hc, ho]
    unfold srWrapSelection
    rw [hsel]
    simp [hcol]

/-- Witness for claim C8 at concrete collapsed selections. -/
theorem zeroLengthSelectionRejected_witness :
    handleTextSelection false true ⟨"abcd".toList, 2, 2⟩ = none ∧
    srWrapSelection "stress" none
      { hasEditor := true, selection := some ⟨0, 0, 2, 2, []⟩,
        editorStart := 0, now := 5, rand := "r", qrand := "q",
        entryId := "e", surroundOk := true } initState = initState :=
  ⟨zeroLengthSelectionRejected.1 false true ⟨"abcd".toList, 2, 2⟩ rfl,
   zeroLengthSelectionRejected.2 "stress" none _ initState ⟨0, 0, 2, 2, []⟩ rfl rfl rfl⟩

/-! ## List lemmas for the store operations -/

theorem updateFirst_mem {α : Type} {p : α → Bool} {f : α → α} {l : List α} {x : α}
    (hx : x ∈ updateFirst p f l) : x ∈ l ∨ ∃ y ∈ l, x = f y := by
  induction l with
  | nil => simp [updateFirst] at hx
  | cons a as ih =>
    by_cases hp : p a = true
    · simp only [updateFirst, hp, if_pos] at hx
      rcases List.mem_cons.mp hx with h | h
      · exact Or.inr ⟨a, List.mem_cons_self a as, h⟩
      · exact Or.inl (List.mem_cons_of_mem a h)
    · simp only [updateFirst, hp, if_neg, Bool.not_eq_true] at hx
      rcases List.mem_cons.mp hx with h | h
      · exact Or.inl (h ▸ List.mem_cons_self a as)
      · rcases ih h with h' | ⟨y, hy, hxy⟩
        · exact Or.inl (List.mem_cons_of_mem a h')
        · exact Or.inr ⟨y, List.mem_cons_of_mem a hy, hxy⟩

theorem find?_eq_some_of_unique {α : Type} {p : α → Bool} {l : List α} {a : α}
    (ha : a ∈ l) (hp : p a = true) (huniq : ∀ x ∈ l, p x = true → x = a) :
    l.find? p = some a := by
  induction l with
  | nil => simp at ha
  | cons x xs ih =>
    by_cases hx : p x = true
    · rw [List.find?_cons_of_pos _ hx, huniq x (List.mem_cons_self x xs) hx]
    · rcases List.mem_cons.mp ha with rfl | hmem
      · exact absurd hp hx
      · rw [List.find?_cons_of_neg _ (by simp [hx])]
        exact ih hmem fun y hy hpy => huniq y (List.mem_cons_of_mem x hy) hpy

theorem updateFirst_restore {α : Type} {p : α → Bool} {f : α → α}
    (hf : ∀ x, p (f x) = p x) :
    ∀ (l : List α) (h : α), l.find? p = some h →
      ∃ i, (updateFirst p f l).findIdx? p = some i ∧
        (updateFirst p f l).set i h = l := by
  intro l
  induction l with
  | nil => intro h hfind; simp at hfind
  | cons x xs ih =>
    intro h hfind
    by_cases hx : p x = true
    · rw [List.find?_cons_of_pos _ hx] at hfind
      obtain rfl : x = h := by injection hfind
      refine ⟨0, ?_, ?_⟩
      · simp [updateFirst, hx, hf]
      · simp [updateFirst, hx]
    · rw [List.find?_cons_of_neg _ (by simp [hx])] at hfind
      obtain ⟨i, hidx, hset⟩ := ih h hfind
      refine ⟨i + 1, ?_, ?_⟩
      · simp only [updateFirst, hx, if_neg, Bool.not_eq_true, List.findIdx?_cons]
        rw [List.findIdx?_succ, hidx]
        rfl
      · simp only [updateFirst, hx, if_neg, Bool.not_eq_true, List.set_cons_succ, hset]

theorem find?_append_right {α : Type} {p : α → Bool} {l₁ l₂ : List α}
    (h : ∀ x ∈ l₁, ¬ p x = true) : (l₁ ++ l₂).find? p = l₂.find? p := by
  rw [List.find?_append, List.find?_eq_none.mpr fun x hx => by simpa using h x hx]
  rfl

/-! ## Claim C4: lifecycle exclusivity invariant -/

/-- The per-annotation lifecycle invariant: `state = processed` exactly
when `action` is non-null. -/
def hlInvariant (h : SRHighlight) : Prop :=
  h.state = SRLifecycle.processed ↔ h.action ≠ none

/-- The system invariant: every stored highlight satisfies the lifecycle
invariant, and every undo-stack snapshot is a `new` highlight with a null
action. -/
def srInvariant (st : SRState) : Prop :=
  (∀ h ∈ st.highlights, hlInvariant h) ∧
  (∀ u ∈ st.undoStack, u.2.state = SRLifecycle.new ∧ u.2.action = none)

theorem createOp_inv {st : SRState} (hinv : srInvariant st) {hNew : SRHighlight}
    {q : SRQueueItem} (hstate : hNew.state = SRLifecycle.new)
    (haction : hNew.action = none) :
    srInvariant { st with highlights := st.highlights ++ [hNew], queue := st.queue ++ [q] } := by
  refine ⟨fun x hx => ?_, hinv.2⟩
  rcases List.mem_append.mp hx with hl | hr
  · exact hinv.1 x hl
  · have hx' : x = hNew := by simpa using hr
    subst hx'
    simp [hlInvariant, hstate, haction]

theorem srWrapSelection_inv (emotion : String) (intent : Option String)
    (ctx : WrapCtx) (st : SRState) (hinv : srInvariant st) :
    srInvariant (srWrapSelection emotion intent ctx st) := by
  unfold srWrapSelection
  cases ctx.selection with
  | none => exact hinv
  | some r =>
    by_cases h1 : (r.isCollapsed || !ctx.hasEditor) = true
    · simpa [h1] using hinv
    · by_cases h2 : isMultiNodeSelection r = true
      · simpa [h1, h2] using hinv
      · by_cases h3 : (!ctx.surroundOk) = true
        · simpa [h1, h2, h3] using hinv
        · simp only [h1, h2, h3, if_false, Bool.not_eq_true, addToQueue, persistHighlight]
          exact createOp_inv hinv rfl rfl

theorem srTagBlock_inv (emotion : String) (ctx : TagCtx) (st : SRState)
    (hinv : srInvariant st) : srInvariant (srTagBlock emotion ctx st) := by
  unfold srTagBlock
  cases ctx.blockId with
  | none => exact hinv
  | some bid =>
    simp only [addToQueue, persistHighlight]
    exact createOp_inv hinv rfl rfl

theorem srProcessAction_inv (highlightId action : String) (now : Nat)
    (st : SRState) (hinv : srInvariant st) :
    srInvariant (srProcessAction highlightId action now st) := by
  unfold srProcessAction
  cases hfind : st.highlights.find? (fun h => h.id == highlightId) with
  | none => exact hinv
  | some h0 =>
    refine ⟨fun x hx => ?_, hinv.2⟩
    rcases updateFirst_mem hx with hold | ⟨y, _, hxy⟩
    · exact hinv.1 x hold
    · subst hxy
      simp [hlInvariant, processMutation]

theorem handleProcessAction_inv (highlightId action : String) (now : Nat)
    (st : SRState) (hinv : srInvariant st) :
    srInvariant (handleProcessAction highlightId action now st) := by
  unfold handleProcessAction
  cases hfind : (st.highlights.filter (fun h => h.state == SRLifecycle.new)).find?
      (fun h => h.id == highlightId) with
  | none => exact srProcessAction_inv _ _ _ _ hinv
  | some h0 =>
    apply srProcessAction_inv
    have hmem := List.mem_of_find?_eq_some hfind
    have hnew : h0.state = SRLifecycle.new := by
      have := (List.mem_filter.mp hmem).2
      simpa using this
    have hmem' : h0 ∈ st.highlights := (List.mem_filter.mp hmem).1
    have haction : h0.action = none := by
      have hiff := hinv.1 h0 hmem'
      by_contra hne
      have : h0.state = SRLifecycle.processed := hiff.mpr hne
      rw [hnew] at this
      exact SRLifecycle.noConfusion this
    refine ⟨hinv.1, fun u hu => ?_⟩
    rcases List.mem_append.mp hu with hl | hr
    · exact hinv.2 u hl
    · have : u = (highlightId, h0) := by simpa using hr
      subst this
      exact ⟨hnew, haction⟩

theorem handleUndo_inv (highlightId : String) (st : SRState)
    (hinv : srInvariant st) : srInvariant (handleUndo highlightId st) := by
  unfold handleUndo
  cases hfind : st.undoStack.find? (fun u => u.1 == highlightId) with
  | none => exact hinv
  | some u0 =>
    obtain ⟨uid, prev⟩ := u0
    have hsnap := hinv.2 _ (List.mem_of_find?_eq_some hfind)
    cases hidx : st.highlights.findIdx? (fun h => h.id == highlightId) with
    | none => exact hinv
    | some i =>
      dsimp only
      refine ⟨fun x hx => ?_, fun u hu => ?_⟩
      · rcases List.mem_or_eq_of_mem_set hx with hold | hxeq
        · exact hinv.1 x hold
        · have h1 : prev.state = SRLifecycle.new := hsnap.1
          have h2 : prev.action = none := hsnap.2
          rw [hxeq]
          simp [hlInvariant, h1, h2]
      · exact hinv.2 u (List.mem_of_mem_filter hu)

/-- The operations of the annotation lifecycle reachable from the UI:
wrap-selection and tag-block creation, processing through the process
screen or directly, and undo. -/
inductive SROp where
  | wrap (emotion : String) (intent : Option String) (ctx : WrapCtx)
  | tagBlock (emotion : String) (ctx : TagCtx)
  | processScreen (highlightId action : String) (now : Nat)
  | processSystem (highlightId action : String) (now : Nat)
  | undo (highlightId : String)

/-- Interpretation of an operation as a state transition. -/
def SROp.apply : SROp → SRState → SRState
  | .wrap e i ctx, st => srWrapSelection e i ctx st
  | .tagBlock e ctx, st => srTagBlock e ctx st
  | .processScreen h a n, st => handleProcessAction h a n st
  | .processSystem h a n, st => srProcessAction h a n st
  | .undo h, st => handleUndo h st

/-- Run a sequence of operations from a state. -/
def runOps (ops : List SROp) (st : SRState) : SRState :=
  ops.foldl (fun s op => op.apply s) st

theorem SROp.apply_inv (op : SROp) (st : SRState) (hinv : srInvariant st) :
    srInvariant (op.apply st) := by
  cases op with
  | wrap e i ctx => exact srWrapSelection_inv e i ctx st hinv
  | tagBlock e ctx => exact srTagBlock_inv e ctx st hinv
  | processScreen h a n => exact handleProcessAction_inv h a n st hinv
  | processSystem h a n => exact srProcessAction_inv h a n st hinv
  | undo h => exact handleUndo_inv h st hinv

theorem runOps_inv (ops : List SROp) (st : SRState) (hinv : srInvariant st) :
    srInvariant (runOps ops st) := by
  induction ops generalizing st with
  | nil => exact hinv
  | cons op rest ih => exact ih (op.apply st) (op.apply_inv st hinv)

/-- Claim C4: lifecycle exclusivity.  Every annotation reachable by any
sequence of create (`srWrapSelection`/`srTagBlock`), process
(`handleProcessAction`/`srProcessAction`) and undo operations satisfies
`state = processed` iff `action ≠ null`, and an annotation in state `new`
always has a null action. -/
theorem lifecycleExclusivity (ops : List SROp) (h : SRHighlight)
    (hmem : h ∈ (runOps ops initState).highlights) :
    (h.state = SRLifecycle.processed ↔ h.action ≠ none) ∧
    (h.state = SRLifecycle.new → h.action = none) := by
  have hinv : srInvariant (runOps ops initState) :=
    runOps_inv ops initState (by constructor <;> simp [initState])
  have hiff := hinv.1 h hmem
  refine ⟨hiff, fun hnew => ?_⟩
  by_contra hne
  have hproc := hiff.mpr hne
  rw [hnew] at hproc
  exact SRLifecycle.noConfusion hproc

/-- Witness for claim C4: the annotation created by one concrete
wrap-selection operation. -/
theorem lifecycleExclusivity_witness :
    ((SRHighlight.state ⟨"hl_5_r", "e1", SRAnchorType.range, some 0, some 3,
        none, "stress", none, SRLifecycle.new, none, 5, none⟩
      = SRLifecycle.processed)
      ↔ SRHighlight.action ⟨"hl_5_r", "e1", SRAnchorType.range, some 0, some 3,
        none, "stress", none, SRLifecycle.new, none, 5, none⟩ ≠ none) ∧
    (SRHighlight.state ⟨"hl_5_r", "e1", SRAnchorType.range, some 0, some 3,
        none, "stress", none, SRLifecycle.new, none, 5, none⟩
      = SRLifecycle.new →
      SRHighlight.action ⟨"hl_5_r", "e1", SRAnchorType.range, some 0, some 3,
        none, "stress", none, SRLifecycle.new, none, 5, none⟩ = none) :=
  lifecycleExclusivity
    [SROp.wrap "stress" none
      { hasEditor := true, selection := some ⟨0, 0, 0, 3, "abc".toList⟩,
        editorStart := 0, now := 5, rand := "r", qrand := "q",
        entryId := "e1", surroundOk := true }]
    ⟨"hl_5_r", "e1", SRAnchorType.range, some 0, some 3, none, "stress",
      none, SRLifecycle.new, none, 5, none⟩
    (by decide)

/-! ## Claim C5: undo reversibility -/

/-- Claim C5: for a freshly-processed annotation (state `new`, null
action, null `processedAt`, unique occupant of its id, no pending undo
entry), undoing right after processing restores the `sr_highlights` store
exactly — in particular the annotation's prior
`(state, action, processedAt)` triple `(new, null, null)`; and undo is a
silent no-op when no matching undo-log entry exists for the id. -/
theorem undoReversibility :
    (∀ (st : SRState) (hid act : String) (now : Nat) (h : SRHighlight),
       h.id = hid → h ∈ st.highlights →
       (∀ x ∈ st.highlights, x.id = hid → x = h) →
       h.state = SRLifecycle.new → h.action = none → h.processedAt = none →
       (∀ u ∈ st.undoStack, u.1 ≠ hid) →
       (handleUndo hid (handleProcessAction hid act now st)).highlights
         = st.highlights)
    ∧ (∀ (st : SRState) (hid : String),
       (∀ u ∈ st.undoStack, u.1 ≠ hid) → handleUndo hid st = st) := by
  constructor
  · intro st hid act now h hI hmem huniq hstate haction _hproc hstack
    have hfind : st.highlights.find? (fun x => x.id == hid) = some h :=
      find?_eq_some_of_unique hmem (by simp [hI]) fun x hx hpx =>
        huniq x hx (by simpa using hpx)
    have hfindf : (st.highlights.filter (fun x => x.state == SRLifecycle.new)).find?
        (fun x => x.id == hid) = some h :=
      find?_eq_some_of_unique
        (List.mem_filter.mpr ⟨hmem, by simp [hstate]⟩)
        (by simp [hI])
        fun x hx hpx => huniq x (List.mem_filter.mp hx).1 (by simpa using hpx)
    obtain ⟨i, hidx, hset⟩ :=
      updateFirst_restore (p := fun x => x.id == hid)
        (f := processMutation act now)
        (fun x => by simp [processMutation]) st.highlights h hfind
    have hfu : (st.undoStack ++ [(hid, h)]).find? (fun u => u.1 == hid)
        = some (hid, h) := by
      rw [find?_append_right fun u hu => by simp [hstack u hu]]
      simp
    unfold handleProcessAction
    rw [hfindf]
    unfold srProcessAction
    dsimp only
    rw [hfind]
    unfold handleUndo
    dsimp only
    rw [hfu, hidx]
    exact hset
  · intro st hid hstack
    have hnone : st.undoStack.find? (fun u => u.1 == hid) = none :=
      List.find?_eq_none.mpr fun u hu => by simp [hstack u hu]
    unfold handleUndo
    rw [hnone]

/-- Witness for claim C5 at a concrete one-annotation store. -/
theorem undoReversibility_witness :
    (handleUndo "h1" (handleProcessAction "h1" "shred" 9
        ⟨[⟨"h1", "e1", SRAnchorType.range, some 0, some 3, none, "stress",
            none, SRLifecycle.new, none, 5, none⟩],
          [⟨"q1", "h1", "e1", "stress", SRQueueLife.queued⟩], []⟩)).highlights
      = [⟨"h1", "e1", SRAnchorType.range, some 0, some 3, none, "stress",
          none, SRLifecycle.new, none, 5, none⟩] ∧
    handleUndo "zz"
        ⟨[⟨"h1", "e1", SRAnchorType.range, some 0, some 3, none, "stress",
            none, SRLifecycle.new, none, 5, none⟩],
          [⟨"q1", "h1", "e1", "stress", SRQueueLife.queued⟩], []⟩
      = ⟨[⟨"h1", "e1", SRAnchorType.range, some 0, some 3, none, "stress",
            none, SRLifecycle.new, none, 5, none⟩],
          [⟨"q1", "h1", "e1", "stress", SRQueueLife.queued⟩], []⟩ :=
  ⟨undoReversibility.1
      ⟨[⟨"h1", "e1", SRAnchorType.range, some 0, some 3, none, "stress",
          none, SRLifecycle.new, none, 5, none⟩],
        [⟨"q1", "h1", "e1", "stress", SRQueueLife.queued⟩], []⟩
      "h1" "shred" 9
      ⟨"h1", "e1", SRAnchorType.range, some 0, some 3, none, "stress",
        none, SRLifecycle.new, none, 5, none⟩
      rfl (by decide) (by decide) rfl rfl rfl (by decide),
    undoReversibility.2
      ⟨[⟨"h1", "e1", SRAnchorType.range, some 0, some 3, none, "stress",
          none, SRLifecycle.new, none, 5, none⟩],
        [⟨"q1", "h1", "e1", "stress", SRQueueLife.queued⟩], []⟩
      "zz" (by decide)⟩

/-! ## Claim C9: `handleStressSelection` (textarea `RichTextEditor`, identical in `part_013`) -/

/-- The stress level union type `'angry' | 'sad' | 'anxious'`. -/
inductive StressLevel where
  | angry
  | sad
  | anxious
deriving DecidableEq, Repr

/-- The literal text of a stress level. -/
def StressLevel.key : StressLevel → String
  | .angry => "angry"
  | .sad => "sad"
  | .anxious => "anxious"

/-- JS `String.prototype.substring(a, b)`: clamps both indices to the
string length and swaps them when `a > b`. -/
def jsSubstring (s : List Char) (a b : Nat) : List Char :=
  let n := s.length
  let a' := min a n
  let b' := min b n
  (s.take (max a' b')).drop (min a' b')

/-- `handleStressSelection(stressLevel)`: with no committed selection
range the text is left unchanged (the handler returns before `onChange`);
otherwise the new value is
`before + "[stress-X]" + selected + "[/stress-X]" + after` built from
`value.substring` calls. -/
def handleStressSelection (stressLevel : StressLevel) (value : List Char)
    (selectionRange : Option (Nat × Nat)) : List Char :=
  match selectionRange with
  | none => value
  | some (s, e) =>
    let before := jsSubstring value 0 s
    let selected := jsSubstring value s e
    let after := jsSubstring value e value.length
    before ++ ("[stress-" ++ stressLevel.key ++ "]").toList ++ selected
      ++ ("[/stress-" ++ stressLevel.key ++ "]").toList ++ after

/-- Claim C9: tagging preserves the underlying text.  For an in-bounds
selection `[s, e)`, `handleStressSelection` yields the old value with the
opening marker inserted at `s` and the closing marker at `e`; removing the
two inserted markers gives back every character of the original text. -/
theorem taggingPreservesText (stressLevel : StressLevel) (value : List Char)
    (s e : Nat) (hse : s ≤ e) (hel : e ≤ value.length) :
    handleStressSelection stressLevel value (some (s, e))
      = value.take s ++ ("[stress-" ++ stressLevel.key ++ "]").toList
        ++ (value.take e).drop s
        ++ ("[/stress-" ++ stressLevel.key ++ "]").toList
        ++ value.drop e
    ∧ value.take s ++ (value.take e).drop s ++ value.drop e = value := by
  have hsn : s ≤ value.length := le_trans hse hel
  constructor
  · simp [handleStressSelection, jsSubstring, Nat.min_eq_left hsn,
      Nat.min_eq_left hel, Nat.max_eq_right hse, Nat.min_eq_left hse,
      Nat.max_eq_right hel]
  · have h1 : (value.take e).take s = value.take s := by
      rw [List.take_take, Nat.min_eq_left hse]
    calc value.take s ++ (value.take e).drop s ++ value.drop e
        = ((value.take e).take s ++ (value.take e).drop s) ++ value.drop e := by
          rw [h1]
      _ = value.take e ++ value.drop e := by rw [List.take_append_drop]
      _ = value := List.take_append_drop e value

/-- Witness for claim C9 at a concrete text and range. -/
theorem taggingPreservesText_witness :
    handleStressSelection StressLevel.angry "hello".toList (some (1, 3))
      = "hello".toList.take 1
        ++ ("[stress-" ++ StressLevel.angry.key ++ "]").toList
        ++ ("hello".toList.take 3).drop 1
        ++ ("[/stress-" ++ StressLevel.angry.key ++ "]").toList
        ++ "hello".toList.drop 3
    ∧ "hello".toList.take 1 ++ ("hello".toList.take 3).drop 1
        ++ "hello".toList.drop 3 = "hello".toList :=
  taggingPreservesText StressLevel.angry "hello".toList 1 3
    (by decide) (by decide)

/-! ## Claim C10: `MemStorage.updateJournalEntry` (`server/storage.ts`) -/

/-- A `CatharsisItem` from `shared/schema.ts`. -/
structure CatharsisItem where
  id : String
  text : String
  stressLevel : StressLevel
  createdAt : String
deriving DecidableEq, Repr

/-- A `JournalEntry` record as stored by `MemStorage` (timestamps as
numbers). -/
structure JournalEntry where
  id : String
  title : String
  content : String
  tags : List String
  mood : Option String
  weather : Option String
  temperature : Option Int
  location : Option String
  journalDate : String
  voiceMemo : Option String
  voiceMemos : List String
  catharsis : List CatharsisItem
  createdAt : Nat
  updatedAt : Nat
deriving DecidableEq, Repr

/-- `Partial<InsertJournalEntry>`: each updatable field is either absent
(`none`) or present with a value; the insert schema has no `id`,
`createdAt` or `updatedAt` field. -/
structure UpdateJournalEntry where
  title : Option String
  content : Option String
  tags : Option (List String)
  mood : Option (Option String)
  weather : Option (Option String)
  temperature : Option (Option Int)
  location : Option (Option String)
  journalDate : Option String
  voiceMemo : Option (Option String)
  voiceMemos : Option (List String)
  catharsis : Option (List CatharsisItem)
deriving DecidableEq, Repr

/-- The object spread `{ ...entry, ...updateData, updatedAt: new Date() }`:
fields present in the update override the entry, `updatedAt` is always
refreshed, and `id`/`createdAt` cannot be overridden because the update
type has no such fields. -/
def applyUpdate (e : JournalEntry) (u : UpdateJournalEntry) (now : Nat) : JournalEntry :=
  { id := e.id
    title := u.title.getD e.title
    content := u.content.getD e.content
    tags := u.tags.getD e.tags
    mood := u.mood.getD e.mood
    weather := u.weather.getD e.weather
    temperature := u.temperature.getD e.temperature
    location := u.location.getD e.location
    journalDate := u.journalDate.getD e.journalDate
    voiceMemo := u.voiceMemo.getD e.voiceMemo
    voiceMemos := u.voiceMemos.getD e.voiceMemos
    catharsis := u.catharsis.getD e.catharsis
    createdAt := e.createdAt
    updatedAt := now }

/-- `MemStorage.updateJournalEntry`: `this.entries.get(id)` is modelled by
`find?` on the association list and `this.entries.set(id, updatedEntry)`
by replacing the existing binding; a missing id returns `undefined` and
leaves the store untouched. -/
def updateJournalEntry (entries : List (String × JournalEntry)) (id : String)
    (u : UpdateJournalEntry) (now : Nat) :
    Option JournalEntry × List (String × JournalEntry) :=
  match entries.find? (fun kv => kv.1 == id) with
  | none => (none, entries)
  | some (_, e) =>
    let e' := applyUpdate e u now
    (some e', updateFirst (fun kv => kv.1 == id) (fun kv => (kv.1, e')) entries)

theorem updateFirst_mem_of_ne {α : Type} {p : α → Bool} {f : α → α} {l : List α}
    {x : α} (hx : x ∈ l) (hpx : ¬ p x = true) : x ∈ updateFirst p f l := by
  induction l with
  | nil => simp at hx
  | cons a as ih =>
    by_cases hp : p a = true
    · rcases List.mem_cons.mp hx with rfl | h
      · exact absurd hp hpx
      · simp only [updateFirst, hp, if_pos]
        exact List.mem_cons_of_mem _ h
    · simp only [updateFirst, hp, if_neg, Bool.not_eq_true]
      rcases List.mem_cons.mp hx with rfl | h
      · exact List.mem_cons_self x (updateFirst p f as)
      · exact List.mem_cons_of_mem _ (ih h)

/-- Claim C10: `updateJournalEntry` changes only the fields present in the
update plus `updatedAt`; `id` and `createdAt` are always preserved; when
the id is missing it returns `undefined` and leaves the store unchanged;
bindings of other ids survive untouched. -/
theorem updateJournalEntry_frame :
    (∀ (entries : List (String × JournalEntry)) (id : String)
       (u : UpdateJournalEntry) (now : Nat),
       entries.find? (fun kv => kv.1 == id) = none →
       updateJournalEntry entries id u now = (none, entries))
    ∧ (∀ (entries : List (String × JournalEntry)) (id : String)
         (u : UpdateJournalEntry) (now : Nat) (k : String) (e : JournalEntry),
       entries.find? (fun kv => kv.1 == id) = some (k, e) →
       (updateJournalEntry entries id u now).1 = some (applyUpdate e u now)
       ∧ (applyUpdate e u now).id = e.id
       ∧ (applyUpdate e u now).createdAt = e.createdAt
       ∧ (applyUpdate e u now).updatedAt = now
       ∧ (u.title = none → (applyUpdate e u now).title = e.title)
       ∧ (∀ v, u.title = some v → (applyUpdate e u now).title = v)
       ∧ (u.content = none → (applyUpdate e u now).content = e.content)
       ∧ (∀ v, u.content = some v → (applyUpdate e u now).content = v)
       ∧ (u.tags = none → (applyUpdate e u now).tags = e.tags)
       ∧ (∀ v, u.tags = some v → (applyUpdate e u now).tags = v)
       ∧ (u.mood = none → (applyUpdate e u now).mood = e.mood)
       ∧ (∀ v, u.mood = some v → (applyUpdate e u now).mood = v)
       ∧ (u.weather = none → (applyUpdate e u now).weather = e.weather)
       ∧ (∀ v, u.weather = some v → (applyUpdate e u now).weather = v)
       ∧ (u.temperature = none → (applyUpdate e u now).temperature = e.temperature)
       ∧ (∀ v, u.temperature = some v → (applyUpdate e u now).temperature = v)
       ∧ (u.location = none → (applyUpdate e u now).location = e.location)
       ∧ (∀ v, u.location = some v → (applyUpdate e u now).location = v)
       ∧ (u.journalDate = none → (applyUpdate e u now).journalDate = e.journalDate)
       ∧ (∀ v, u.journalDate = some v → (applyUpdate e u now).journalDate = v)
       ∧ (u.voiceMemo = none → (applyUpdate e u now).voiceMemo = e.voiceMemo)
       ∧ (∀ v, u.voiceMemo = some v → (applyUpdate e u now).voiceMemo = v)
       ∧ (u.voiceMemos = none → (applyUpdate e u now).voiceMemos = e.voiceMemos)
       ∧ (∀ v, u.voiceMemos = some v → (applyUpdate e u now).voiceMemos = v)
       ∧ (u.catharsis = none → (applyUpdate e u now).catharsis = e.catharsis)
       ∧ (∀ v, u.catharsis = some v → (applyUpdate e u now).catharsis = v)
       ∧ (∀ kv ∈ entries, kv.1 ≠ id →
           kv ∈ (updateJournalEntry entries id u now).2)) := by
  constructor
  · intro entries id u now hfind
    simp [updateJournalEntry, hfind]
  · intro entries id u now k e hfind
    refine ⟨by simp [updateJournalEntry, hfind], rfl, rfl, rfl,
      fun h => by simp [applyUpdate, h], fun v h => by simp [applyUpdate, h],
      fun h => by simp [applyUpdate, h], fun v h => by simp [applyUpdate, h],
      fun h => by simp [applyUpdate, h], fun v h => by simp [applyUpdate, h],
      fun h => by simp [applyUpdate, h], fun v h => by simp [applyUpdate, h],
      fun h => by simp [applyUpdate, h], fun v h => by simp [applyUpdate, h],
      fun h => by simp [applyUpdate, h], fun v h => by simp [applyUpdate, h],
      fun h => by simp [applyUpdate, h], fun v h => by simp [applyUpdate, h],
      fun h => by simp [applyUpdate, h], fun v h => by simp [applyUpdate, h],
      fun h => by simp [applyUpdate, h], fun v h => by simp [applyUpdate, h],
      fun h => by simp [applyUpdate, h], fun v h => by simp [applyUpdate, h],
      fun h => by simp [applyUpdate, h], fun v h => by simp [applyUpdate, h],
      fun kv hkv hne => ?_⟩
    simp only [updateJournalEntry, hfind]
    exact updateFirst_mem_of_ne hkv (by simp [hne])

/-- Witness for claim C10: the missing-id case on the empty store, and a
present-id update setting only the title. -/
theorem updateJournalEntry_frame_witness :
    updateJournalEntry [] "x"
      ⟨none, none, none, none, none, none, none, none, none, none, none⟩ 7
      = (none, [])
    ∧ (updateJournalEntry
        [("a", ⟨"a", "t", "c", [], none, none, none, none, "2025-01-01",
          none, [], [], 3, 4⟩)] "a"
        ⟨some "t2", none, none, none, none, none, none, none, none, none, none⟩
        7).1
      = some (applyUpdate
          ⟨"a", "t", "c", [], none, none, none, none, "2025-01-01",
            none, [], [], 3, 4⟩
          ⟨some "t2", none, none, none, none, none, none, none, none, none, none⟩
          7)
    ∧ (applyUpdate
        ⟨"a", "t", "c", [], none, none, none, none, "2025-01-01",
          none, [], [], 3, 4⟩
        ⟨some "t2", none, none, none, none, none, none, none, none, none, none⟩
        7).createdAt
      = JournalEntry.createdAt ⟨"a", "t", "c", [], none, none, none, none,
          "2025-01-01", none, [], [], 3, 4⟩ :=
  ⟨updateJournalEntry_frame.1 [] "x"
      ⟨none, none, none, none, none, none, none, none, none, none, none⟩ 7 rfl,
    (updateJournalEntry_frame.2
      [("a", ⟨"a", "t", "c", [], none, none, none, none, "2025-01-01",
        none, [], [], 3, 4⟩)] "a"
      ⟨some "t2", none, none, none, none, none, none, none, none, none, none⟩
      7 "a"
      ⟨"a", "t", "c", [], none, none, none, none, "2025-01-01",
        none, [], [], 3, 4⟩ (by decide)).1,
    (updateJournalEntry_frame.2
      [("a", ⟨"a", "t", "c", [], none, none, none, none, "2025-01-01",
        none, [], [], 3, 4⟩)] "a"
      ⟨some "t2", none, none, none, none, none, none, none, none, none, none⟩
      7 "a"
      ⟨"a", "t", "c", [], none, none, none, none, "2025-01-01",
        none, [], [], 3, 4⟩ (by decide)).2.2.1⟩

/-! ## Claim C6: marker rule chains of the two cited `convertToHtml` implementations

Each converter is literally a chain of `String.replace` calls; it is
embedded as a list of rule descriptors (in source order) folded by a rule
interpreter, so that both the behaviour and the application order of the
rules are part of the definition. -/

/-- JS `\w` (ASCII): letters, digits, underscore. -/
def jsWordChar (c : Char) : Bool := c.isAlpha || c.isDigit || c = '_'

/-- Space or tab, as in `[ \t]`. -/
def spaceTab (c : Char) : Bool := c = ' ' || c = '\t'

/-- Opening tag for heading level `n`. -/
def hOpen : Nat → String
  | 1 => "<h1>"
  | 2 => "<h2>"
  | 3 => "<h3>"
  | _ => "<h?>"

/-- Closing tag for heading level `n`. -/
def hClose : Nat → String
  | 1 => "</h1>"
  | 2 => "</h2>"
  | 3 => "</h3>"
  | _ => "</h?>"

/-- Apply a per-line rewrite to every line (the JS `m` flag). -/
def mapLines (f : List Char → List Char) (s : List Char) : List Char :=
  List.intercalate ['\n'] ((s.splitOn '\n').map f)

/-- One line of `FormattedTextDisplay`'s heading rule
`^#{n}[ \t]+(.+)$` → `<hn>$1</hn>`: `n` hashes, one or more spaces/tabs,
then a non-empty greedy body (when the tail is all whitespace the greedy
`[ \t]+` backtracks one character so the body is the final space). -/
def headingFTDLine (n : Nat) (line : List Char) : List Char :=
  if (List.replicate n '#').isPrefixOf line then
    let rest := line.drop n
    match rest with
    | [] => line
    | c :: _ =>
      if spaceTab c then
        let body := rest.dropWhile spaceTab
        if body ≠ [] then (hOpen n).toList ++ body ++ (hClose n).toList
        else if 2 ≤ rest.length then
          (hOpen n).toList ++ [rest.getLastD ' '] ++ (hClose n).toList
        else line
      else line
  else line

/-- One line of `part_013`'s heading rule `^#{n} (.*$)` → `<hn>$1</hn>`:
`n` hashes, exactly one space, then the (possibly empty) rest of line. -/
def headingP13Line (n : Nat) (line : List Char) : List Char :=
  if (List.replicate n '#' ++ [' ']).isPrefixOf line then
    (hOpen n).toList ++ line.drop (n + 1) ++ (hClose n).toList
  else line

/-- One line of the bullet rule `^- (.+)$` → `• $1`. -/
def bulletLine (line : List Char) : List Char :=
  if ['-', ' '].isPrefixOf line then
    let body := line.drop 2
    if body ≠ [] then '•' :: ' ' :: body else line
  else line

/-- One line of the numbered-list rule `^(\d+)\. (.+)$` → `$1. $2` (the
replacement reassembles exactly the matched text). -/
def numberedLine (line : List Char) : List Char :=
  let ds := line.takeWhile Char.isDigit
  if ds ≠ [] then
    match line.drop ds.length with
    | '.' :: ' ' :: body => if body ≠ [] then ds ++ '.' :: ' ' :: body else line
    | _ => line
  else line

/-- The literal `[stress-E]` marker. -/
def stressOpen (e : String) : String := "[stress-" ++ e ++ "]"

/-- The literal `[/stress-E]` marker. -/
def stressClose (e : String) : String := "[/stress-" ++ e ++ "]"

/-- The opening span emitted for emotion `E`. -/
def stressSpanOpen (e : String) : String :=
  "<span class=\"stress-highlight stress-" ++ e ++ "\">"

/-- `FormattedTextDisplay`'s combined stress rule
`\[stress-(angry|sad|anxious)\]([\s\S]*?)\[\/stress-\1\]` with a
backreference: the open marker selects the emotion, the lazy content may
span newlines, the close marker must carry the same emotion. -/
def stressFTDF : Nat → List Char → List Char
  | 0, s => s
  | _ + 1, [] => []
  | fuel + 1, x :: rest =>
    match ["angry", "sad", "anxious"].findSome? (fun e =>
        if (stressOpen e).toList.isPrefixOf (x :: rest) then some e else none) with
    | some e =>
      match findLazy (stressClose e).toList true
          ((x :: rest).drop (stressOpen e).toList.length) with
      | some (content, after) =>
          (stressSpanOpen e).toList ++ content ++ "</span>".toList ++
            stressFTDF fuel after
      | none => x :: stressFTDF fuel rest
    | none => x :: stressFTDF fuel rest

/-- Lazy close-delimiter search for a lookaround emphasis rule: the
earliest position where the delimiter matches, its preceding character is
not rejected by the close lookbehind, and the character after it is not
rejected by the close lookahead.  `prev` is the character immediately
before the current position in the original string. -/
def findCloseLA (close : List Char) (closePrevBad closeNextBad : Char → Bool) :
    Char → List Char → Option (List Char × List Char)
  | _, [] => none
  | prev, x :: rest =>
    if close.isPrefixOf (x :: rest) && !closePrevBad prev &&
        (match (x :: rest).drop close.length with
         | [] => true
         | c :: _ => !closeNextBad c) then
      some ([], (x :: rest).drop close.length)
    else
      match findCloseLA close closePrevBad closeNextBad x rest with
      | some (content, after) => some (x :: content, after)
      | none => none

/-- Scanner for a lookaround emphasis rule
`(?<!A)D(?!B)([\s\S]*?)(?<!C)D(?!E)` → `PRE$1POST`: JS `replace` scans the
original string left to right, so lookbehinds see original characters even
inside earlier matches; `prev` threads that character (`none` at the very
start of the string). -/
def emphLAF (delim : List Char)
    (openPrevBad openNextBad closePrevBad closeNextBad : Char → Bool)
    (pre post : List Char) : Option Char → Nat → List Char → List Char
  | _, 0, s => s
  | _, _ + 1, [] => []
  | prev, fuel + 1, x :: rest =>
    if (match prev with | none => true | some p => !openPrevBad p) &&
        delim.isPrefixOf (x :: rest) &&
        (match (x :: rest).drop delim.length with
         | [] => true
         | c :: _ => !openNextBad c) then
      match findCloseLA delim closePrevBad closeNextBad (delim.getLastD ' ')
          ((x :: rest).drop delim.length) with
      | some (content, after) =>
          pre ++ content ++ post ++
            emphLAF delim openPrevBad openNextBad closePrevBad closeNextBad
              pre post (some (delim.getLastD ' ')) fuel after
      | none =>
          x :: emphLAF delim openPrevBad openNextBad closePrevBad closeNextBad
            pre post (some x) fuel rest
    else
      x :: emphLAF delim openPrevBad openNextBad closePrevBad closeNextBad
        pre post (some x) fuel rest

/-- A rule descriptor: one `.replace` call of a converter chain. -/
inductive MarkerRule where
  | replaceAllR (pat repl : String)
  | headingFTD (n : Nat)
  | headingP13 (n : Nat)
  | bulletFTD
  | numberedFTD
  | stressFTD
  | boldSimple
  | italicSimple
  | underlineSimple
  | stressSimple (emotion : String)
  | boldFTD
  | italicFTD
  | underlineFTD
deriving DecidableEq, Repr

/-- The behaviour of one rule. -/
def applyMarkerRule (r : MarkerRule) (s : List Char) : List Char :=
  match r with
  | .replaceAllR pat repl => replaceAllF pat.toList repl.toList s.length s
  | .headingFTD n => mapLines (headingFTDLine n) s
  | .headingP13 n => mapLines (headingP13Line n) s
  | .bulletFTD => mapLines bulletLine s
  | .numberedFTD => mapLines numberedLine s
  | .stressFTD => stressFTDF s.length s
  | .boldSimple =>
      replaceTagF "**".toList "**".toList "<strong>".toList "</strong>".toList
        false s.length s
  | .italicSimple =>
      replaceTagF "*".toList "*".toList "<em>".toList "</em>".toList
        false s.length s
  | .underlineSimple =>
      replaceTagF "_".toList "_".toList "<u>".toList "</u>".toList
        false s.length s
  | .stressSimple e =>
      replaceTagF (stressOpen e).toList (stressClose e).toList
        (stressSpanOpen e).toList "</span>".toList false s.length s
  | .boldFTD =>
      emphLAF "**".toList (fun c => c = '*') jsSpace jsSpace (fun c => c = '*')
        "<strong>".toList "</strong>".toList none s.length s
  | .italicFTD =>
      emphLAF "*".toList (fun c => c = '*') (fun c => c = '*' || jsSpace c)
        jsSpace (fun c => c = '*') "<em>".toList "</em>".toList none s.length s
  | .underlineFTD =>
      emphLAF "_".toList jsWordChar (fun c => c = '_' || jsSpace c)
        jsSpace jsWordChar "<u>".toList "</u>".toList none s.length s

/-- Apply a rule chain in order. -/
def applyRules (rules : List MarkerRule) (s : List Char) : List Char :=
  rules.foldl (fun t r => applyMarkerRule r t) s

namespace FormattedTextDisplay

/-- The `.replace` chain of `FormattedTextDisplay.tsx`'s legacy
`convertToHtml`, in source order: newline normalisation (`\r\n?|\r` as two
passes), `escapeHtml` (`&`, `<`, `>`), headings h3/h2/h1, bullet and
numbered lists, the combined stress rule, then bold, italic, underline
with lookarounds. -/
def rules : List MarkerRule :=
  [ .replaceAllR "\r\n" "\n", .replaceAllR "\r" "\n",
    .replaceAllR "&" "&amp;", .replaceAllR "<" "&lt;", .replaceAllR ">" "&gt;",
    .headingFTD 3, .headingFTD 2, .headingFTD 1,
    .bulletFTD, .numberedFTD,
    .stressFTD,
    .boldFTD, .italicFTD, .underlineFTD ]

/-- `convertToHtml` of `FormattedTextDisplay.tsx` (legacy branch). -/
def convertToHtml (s : List Char) : List Char := applyRules rules s

end FormattedTextDisplay

namespace Part013

/-- The `.replace` chain of `part_013`'s `convertToHtml`, in source order:
headings h3/h2/h1, then bold, italic, underline, then the three stress
rules, then `\n` → `<br>`. -/
def rules : List MarkerRule :=
  [ .headingP13 3, .headingP13 2, .headingP13 1,
    .boldSimple, .italicSimple, .underlineSimple,
    .stressSimple "angry", .stressSimple "sad", .stressSimple "anxious",
    .replaceAllR "\n" "<br>" ]

/-- `convertToHtml` of `part_013`. -/
def convertToHtml (s : List Char) : List Char := applyRules rules s

end Part013

/-- The category of a rule in the specification's precedence. -/
inductive RuleCat where
  | heading
  | list
  | span
  | bold
  | italic
  | underline
  | other
deriving DecidableEq, Repr

/-- Classify a rule. -/
def MarkerRule.category : MarkerRule → RuleCat
  | .replaceAllR _ _ => .other
  | .headingFTD _ => .heading
  | .headingP13 _ => .heading
  | .bulletFTD => .list
  | .numberedFTD => .list
  | .stressFTD => .span
  | .stressSimple _ => .span
  | .boldSimple => .bold
  | .boldFTD => .bold
  | .italicSimple => .italic
  | .italicFTD => .italic
  | .underlineSimple => .underline
  | .underlineFTD => .underline

/-- The specification's precedence index: heading 0, list 1, span 2,
bold 3, italic 4, underline 5; rules outside the enumeration (escaping,
newline handling) carry no index. -/
def claimedPrec : RuleCat → Option Nat
  | .heading => some 0
  | .list => some 1
  | .span => some 2
  | .bold => some 3
  | .italic => some 4
  | .underline => some 5
  | .other => none

/-- The precedence indices of a chain, in application order. -/
def precSeq (rules : List MarkerRule) : List Nat :=
  rules.filterMap fun r => claimedPrec r.category

/-- Whether a sequence is non-decreasing. -/
def isSortedLe : List Nat → Bool
  | [] => true
  | [_] => true
  | a :: b :: t => a ≤ b && isSortedLe (b :: t)

/-- A chain follows the claimed precedence when its precedence indices are
non-decreasing. -/
def followsClaimedOrder (rules : List MarkerRule) : Bool :=
  isSortedLe (precSeq rules)

/-- Claim C6 (counterexample): not every implementation of the converter
applies the claimed order — `part_013`'s chain applies the inline emphasis
rules (bold, italic, underline) before the span stress rules. -/
theorem markerPrecedence_counterexample :
    followsClaimedOrder Part013.rules = false := by decide

/-- Claim C6 (amended): `FormattedTextDisplay`'s converter applies the
claimed precedence (headings, then list markers, then span stress tags,
then bold before italic before underline), but `part_013`'s converter
applies the emphasis rules before the span rules (and has no list stage),
so the implementations do not share the claimed order.  The two concrete
precedence sequences are listed explicitly. -/
theorem markerPrecedence_amended :
    followsClaimedOrder FormattedTextDisplay.rules = true
    ∧ followsClaimedOrder Part013.rules = false
    ∧ precSeq FormattedTextDisplay.rules = [0, 0, 0, 1, 1, 2, 3, 4, 5]
    ∧ precSeq Part013.rules = [0, 0, 0, 3, 4, 5, 2, 2, 2] := by decide

end ClearCache
